import Mathlib

/-!
Shallow embedding of `qdrantWrapper.py` (class `QdrantWrapper`) and its
exceptions module.  The external Qdrant client is modelled by explicit
oracles describing the outcome of each service call, and every wrapper
method is a pure function from its arguments and the instance state to a
result, the list of requests it issued to the service, and the new
instance state.  Python truthiness of the optional `collection_name`,
`port` and `api_key` parameters is modelled explicitly (`None`, `0` and
the empty string are falsy).
-/

namespace QdrantWrapper

/-- Distance metric enumeration (`qdrant_client` `Distance`). -/
inductive DistanceMetric where
  | dot
  | cosine
  | euclid
  | manhattan
deriving DecidableEq, Repr

/-- The client handle created in `__init__`: either `QdrantClient(url, port=port)`
or `QdrantClient(url, api_key=api_key)`. -/
inductive ClientHandle where
  | byPort (url : String) (port : Int)
  | byApiKey (url : String) (apiKey : String)
deriving DecidableEq, Repr

/-- Exceptions observable from the wrapper: the three classes of
`qdrantWrapperExceptions.py` plus the underlying-service exceptions that
propagate out of wrapper methods unchanged. -/
inductive WrapError where
  | clientConnection            -- ClientConnectionException
  | collectionNameNotProvided   -- CollectionNameNotProvidedException
  | collectionAlreadyExists     -- CollectionAlreadyExistsException
  | responseHandling            -- ResponseHandlingException (propagated)
  | valueError                  -- Python ValueError (range step 0)
deriving DecidableEq, Repr

/-- A point passed to upsert.  The wrapper only ever reads the `id`
field (`point.id` in `upsert_data_batches`); the vector is carried
through opaquely. -/
structure Point where
  id : Nat
  vector : List Int
deriving DecidableEq, Repr

/-- The mutable instance state of a `QdrantWrapper` object: the fields
assigned in `__init__`.  The log sink (`logger_fn`) is an opaque handle. -/
structure WrapperState where
  client : ClientHandle
  distance : DistanceMetric
  vector_size : Nat
  collection_name : Option String
  print_logs : Bool
  logger_fn : Nat
deriving DecidableEq, Repr

/-- Python truthiness of an optional string (`None` and `""` are falsy). -/
def truthyOptStr : Option String → Bool
  | none => false
  | some str => str != ""

/-- Python truthiness of an optional int (`None` and `0` are falsy). -/
def truthyOptInt : Option Int → Bool
  | none => false
  | some n => n != 0

/-- `__init__`: stores the configuration, builds a client from the port
if one is (truthily) given, else from the API key if one is (truthily)
given, else raises `ClientConnectionException`. -/
def qdrant_wrapper_init (cluster_url : String) (port : Option Int)
    (api_key : Option String) (distance : DistanceMetric) (vector_size : Nat)
    (collection_name : Option String) (print_logs : Bool) (logger_fn : Nat) :
    Except WrapError WrapperState :=
  if truthyOptInt port then
    .ok ⟨.byPort cluster_url (port.getD 0), distance, vector_size,
         collection_name, print_logs, logger_fn⟩
  else if truthyOptStr api_key then
    .ok ⟨.byApiKey cluster_url (api_key.getD ""), distance, vector_size,
         collection_name, print_logs, logger_fn⟩
  else
    .error .clientConnection

/-- Outcome of the service call `qdrant_client.create_collection`. -/
inductive SvcCreateResult where
  | ok
  | unexpectedResponse   -- raises UnexpectedResponse
  | otherFailure         -- any other exception (propagates unchanged)
deriving DecidableEq, Repr

/-- `create_collection`: rejects a falsy (empty) name, maps the
service's `UnexpectedResponse` to `CollectionAlreadyExistsException`,
lets other service failures propagate, and on success stores the name as
the active collection when `set_collection_name` is true. -/
def create_collection (svc : SvcCreateResult) (collection_name : String)
    (_distance : DistanceMetric) (_vector_size : Nat)
    (set_collection_name : Bool) (s : WrapperState) :
    Except WrapError Unit × WrapperState :=
  if collection_name = "" then
    (.error .collectionNameNotProvided, s)
  else
    match svc with
    | .unexpectedResponse => (.error .collectionAlreadyExists, s)
    | .otherFailure => (.error .responseHandling, s)
    | .ok =>
        if set_collection_name then
          (.ok (), { s with collection_name := some collection_name })
        else
          (.ok (), s)

/-- A call to `qdrant_client.upsert` as issued by `upsert_data`
(always with `wait=True`). -/
structure UpsertReq where
  collection : String
  points : List Point
  wait : Bool
deriving DecidableEq, Repr

/-- `upsert_data`: explicit per-call name if truthy, else the active
collection if truthy, else raise; the single service call either
succeeds or raises `ResponseHandlingException` (which propagates). -/
def upsert_data (svcOk : Bool) (pointStructs : List Point)
    (collection_name : Option String) (s : WrapperState) :
    (Except WrapError Unit × List UpsertReq) × WrapperState :=
  if truthyOptStr collection_name then
    ((if svcOk then .ok () else .error .responseHandling,
      [⟨collection_name.getD "", pointStructs, true⟩]), s)
  else if truthyOptStr s.collection_name then
    ((if svcOk then .ok () else .error .responseHandling,
      [⟨s.collection_name.getD "", pointStructs, true⟩]), s)
  else
    ((.error .collectionNameNotProvided, []), s)

/-- The loop body of `upsert_data_batches` for a fixed resolved
collection name `c` and batch size `b1 + 1`.  The oracle `ok i a` tells
whether the `a`-th attempt (0 = first, 1 = retry) at the `i`-th chunk
succeeds; `false` means the `upsert_data` call raised
`ResponseHandlingException`.  `acc` accumulates upserted ids and `tr`
the issued service requests. -/
def upsert_data_batches_go (ok : Nat → Nat → Bool) (b1 : Nat) (c : String) :
    List Point → Nat → List Nat → List UpsertReq → List Nat × List UpsertReq
  | [], _, acc, tr => (acc, tr)
  | p :: rest, j, acc, tr =>
    let chunk := p :: rest.take b1
    let req : UpsertReq := ⟨c, chunk, true⟩
    if ok j 0 then
      upsert_data_batches_go ok b1 c (rest.drop b1) (j + 1)
        (acc ++ chunk.map Point.id) (tr ++ [req])
    else if ok j 1 then
      upsert_data_batches_go ok b1 c (rest.drop b1) (j + 1)
        (acc ++ chunk.map Point.id) (tr ++ [req, req])
    else
      (acc, tr ++ [req, req])
  termination_by l => l.length
  decreasing_by
    all_goals simp [List.length_drop]; omega

/-- `upsert_data_batches`: resolves the collection name by the same
if/elif/else pattern, then slices `pointStructs` into chunks of
`batch_size` via `range(0, len, batch_size)` (a zero step raises
`ValueError`), upserting each chunk with a single retry and aborting on
a second consecutive failure. -/
def upsert_data_batches (ok : Nat → Nat → Bool) (pointStructs : List Point)
    (batch_size : Nat) (collection_name : Option String) (s : WrapperState) :
    (Except WrapError (List Nat) × List UpsertReq) × WrapperState :=
  if truthyOptStr collection_name then
    match batch_size with
    | 0 => ((.error .valueError, []), s)
    | b1 + 1 =>
        let r := upsert_data_batches_go ok b1 (collection_name.getD "")
          pointStructs 0 [] []
        ((.ok r.1, r.2), s)
  else if truthyOptStr s.collection_name then
    match batch_size with
    | 0 => ((.error .valueError, []), s)
    | b1 + 1 =>
        let r := upsert_data_batches_go ok b1 (s.collection_name.getD "")
          pointStructs 0 [] []
        ((.ok r.1, r.2), s)
  else
    ((.error .collectionNameNotProvided, []), s)

/-- A call to `qdrant_client.search`.  `with_vectors` and
`score_threshold` are `Option`s because the wrapper passes them as
keyword arguments only in one of its two branches; `none` means the
keyword argument was not passed at all (the client default applies). -/
structure SearchReq where
  collection : String
  query_vector : List Int
  limit : Nat
  query_filter : Option Nat
  with_vectors : Option Bool
  score_threshold : Option Int
deriving DecidableEq, Repr

/-- `search`: in the explicit-name branch all six arguments are
forwarded; in the active-collection branch only `collection_name`,
`query_vector`, `limit` and `query_filter` are forwarded.  The oracle
`svc a` gives the outcome of the `a`-th attempt: `some r` a result list,
`none` a `ResponseHandlingException`/`UnexpectedResponse`; on a second
consecutive failure the method returns `[]`. -/
def search (svc : Nat → Option (List Nat)) (query_vector : List Int)
    (limit : Nat) (query_filter : Option Nat)
    (collection_name : Option String) (with_vectors : Bool)
    (score_threshold : Int) (s : WrapperState) :
    (Except WrapError (List Nat) × List SearchReq) × WrapperState :=
  if truthyOptStr collection_name then
    let req : SearchReq := ⟨collection_name.getD "", query_vector, limit,
      query_filter, some with_vectors, some score_threshold⟩
    match svc 0 with
    | some r => ((.ok r, [req]), s)
    | none =>
        match svc 1 with
        | some r => ((.ok r, [req, req]), s)
        | none => ((.ok [], [req, req]), s)
  else if truthyOptStr s.collection_name then
    let req : SearchReq := ⟨s.collection_name.getD "", query_vector, limit,
      query_filter, none, none⟩
    match svc 0 with
    | some r => ((.ok r, [req]), s)
    | none =>
        match svc 1 with
        | some r => ((.ok r, [req, req]), s)
        | none => ((.ok [], [req, req]), s)
  else
    ((.error .collectionNameNotProvided, []), s)

/-- A call to `qdrant_client.scroll` as issued by `filter_search`. -/
structure ScrollReq where
  collection : String
  scroll_filter : Nat
  limit : Nat
  with_vectors : Bool
deriving DecidableEq, Repr

/-- `filter_search`: resolves the collection name and performs one
scroll call, returning the service's page and cursor unchanged. -/
def filter_search (svcPage : List Nat × Option Nat) (scroll_filter : Nat)
    (collection_name : Option String) (limit : Nat) (with_vectors : Bool)
    (s : WrapperState) :
    (Except WrapError (List Nat × Option Nat) × List ScrollReq) × WrapperState :=
  if truthyOptStr collection_name then
    ((.ok svcPage, [⟨collection_name.getD "", scroll_filter, limit,
      with_vectors⟩]), s)
  else if truthyOptStr s.collection_name then
    ((.ok svcPage, [⟨s.collection_name.getD "", scroll_filter, limit,
      with_vectors⟩]), s)
  else
    ((.error .collectionNameNotProvided, []), s)

/-- A call to `qdrant_client.delete_collection`. -/
structure DeleteCollectionReq where
  collection : String
deriving DecidableEq, Repr

/-- `delete_collection`: resolves the collection name, requests
deletion (a service failure propagates before the final assignment),
then unconditionally sets `self.collection_name = None`. -/
def delete_collection (svcOk : Bool) (collection_name : Option String)
    (s : WrapperState) :
    (Except WrapError Unit × List DeleteCollectionReq) × WrapperState :=
  if truthyOptStr collection_name then
    if svcOk then
      ((.ok (), [⟨collection_name.getD ""⟩]),
        { s with collection_name := none })
    else
      ((.error .responseHandling, [⟨collection_name.getD ""⟩]), s)
  else if truthyOptStr s.collection_name then
    if svcOk then
      ((.ok (), [⟨s.collection_name.getD ""⟩]),
        { s with collection_name := none })
    else
      ((.error .responseHandling, [⟨s.collection_name.getD ""⟩]), s)
  else
    ((.error .collectionNameNotProvided, []), s)

/-- A call to `qdrant_client.delete` as issued by `delete_data`. -/
structure DeleteReq where
  collection : String
  points_selector : Option Nat
deriving DecidableEq, Repr

/-- `delete_data`: resolves the collection name and issues one delete
call with the given points selector. -/
def delete_data (filter : Option Nat) (collection_name : Option String)
    (s : WrapperState) :
    (Except WrapError Unit × List DeleteReq) × WrapperState :=
  if truthyOptStr collection_name then
    ((.ok (), [⟨collection_name.getD "", filter⟩]), s)
  else if truthyOptStr s.collection_name then
    ((.ok (), [⟨s.collection_name.getD "", filter⟩]), s)
  else
    ((.error .collectionNameNotProvided, []), s)

/-- A call to `qdrant_client.create_payload_index`.  The collection is an
`Option` because `create_meta_index` forwards `self.collection_name`
directly, which may be `None`. -/
structure IndexReq where
  collection : Option String
  field_name : String
  field_type : String
deriving DecidableEq, Repr

/-- `create_meta_index`: takes no collection-name parameter and performs
no guard; it forwards `self.collection_name` (possibly `None`) straight
to the service. -/
def create_meta_index (field_name : String) (field_type : String)
    (s : WrapperState) :
    (Except WrapError Unit × List IndexReq) × WrapperState :=
  ((.ok (), [⟨s.collection_name, field_name, field_type⟩]), s)

/-- The collection-name precedence of the spec, as a single function:
explicit truthy per-call name, else truthy active collection, else
nothing. -/
def resolve_collection_name (explicit active : Option String) :
    Option String :=
  if truthyOptStr explicit then explicit
  else if truthyOptStr active then active
  else none

/-- The chunking performed by `range(0, len(points), b1 + 1)` with
slices `points[i : i + b1 + 1]`: consecutive chunks of size `b1 + 1`,
the last one possibly shorter. -/
def chunks (b1 : Nat) : List Point → List (List Point)
  | [] => []
  | p :: rest => (p :: rest.take b1) :: chunks b1 (rest.drop b1)
  termination_by l => l.length
  decreasing_by
    all_goals simp [List.length_drop]; omega

/-- The request trace of a run of `upsert_data_batches_go` in which
every chunk succeeds within two attempts: one request per chunk when the
first attempt succeeds, two when it is retried. -/
def trace_all (ok : Nat → Nat → Bool) (b1 : Nat) (c : String) :
    List Point → Nat → List UpsertReq
  | [], _ => []
  | p :: rest, j =>
    let req : UpsertReq := ⟨c, p :: rest.take b1, true⟩
    (if ok j 0 then [req] else [req, req]) ++
      trace_all ok b1 c (rest.drop b1) (j + 1)
  termination_by l _ => l.length
  decreasing_by
    all_goals simp [List.length_drop]; omega


/-! ### Lemmas about the batch chunking and the upsert loop -/

theorem chunks_nil (b1 : Nat) : chunks b1 [] = [] := by simp [chunks]

theorem chunks_cons (b1 : Nat) (p : Point) (rest : List Point) :
    chunks b1 (p :: rest) = (p :: rest.take b1) :: chunks b1 (rest.drop b1) := by
  rw [chunks]

theorem chunks_join (b1 : Nat) : ∀ l : List Point, (chunks b1 l).flatten = l := by
  intro l
  induction l using chunks.induct b1 with
  | case1 => simp [chunks]
  | case2 p rest ih =>
      rw [chunks_cons]
      simp only [List.flatten_cons, ih]
      simp [List.take_append_drop]

theorem chunks_length (b1 : Nat) : ∀ l : List Point,
    (chunks b1 l).length = (l.length + b1) / (b1 + 1) := by
  intro l
  induction l using chunks.induct b1 with
  | case1 => simp [chunks, Nat.div_eq_of_lt]
  | case2 p rest ih =>
      rw [chunks_cons]
      simp only [List.length_cons, ih, List.length_drop]
      rcases le_or_lt b1 rest.length with h | h
      · rw [Nat.sub_add_cancel h]
        have h3 : rest.length + 1 + b1 = rest.length + (b1 + 1) := by omega
        rw [h3, Nat.add_div_right _ (Nat.succ_pos b1)]
      · have h1 : rest.length - b1 = 0 := by omega
        have h2 : b1 / (b1 + 1) = 0 := Nat.div_eq_of_lt (by omega)
        have h3 : rest.length + 1 + b1 = rest.length + (b1 + 1) := by omega
        rw [h1, Nat.zero_add, h2, h3, Nat.add_div_right _ (Nat.succ_pos b1), Nat.div_eq_of_lt (show rest.length < b1 + 1 by omega)]

theorem chunks_size_le (b1 : Nat) : ∀ l : List Point, ∀ ch ∈ chunks b1 l,
    ch.length ≤ b1 + 1 := by
  intro l
  induction l using chunks.induct b1 with
  | case1 => simp [chunks]
  | case2 p rest ih =>
      rw [chunks_cons]
      intro ch hch
      rcases List.mem_cons.mp hch with h | h
      · subst h
        simp only [List.length_cons, List.length_take]
        omega
      · exact ih ch h

theorem chunks_take_flatten (b1 : Nat) : ∀ l : List Point, ∀ f : Nat,
    ((chunks b1 l).take f).flatten = l.take (f * (b1 + 1)) := by
  intro l
  induction l using chunks.induct b1 with
  | case1 => intro f; simp [chunks]
  | case2 p rest ih =>
      intro f
      cases f with
      | zero => simp
      | succ g =>
          rw [chunks_cons]
          simp only [List.take_succ_cons, List.flatten_cons, ih g]
          have h : (g + 1) * (b1 + 1) = (b1 + 1) + g * (b1 + 1) := by ring
          rw [h, List.take_add, List.take_succ_cons, List.drop_succ_cons]


theorem go_nil (ok : Nat → Nat → Bool) (b1 : Nat) (c : String) (j : Nat)
    (acc : List Nat) (tr : List UpsertReq) :
    upsert_data_batches_go ok b1 c [] j acc tr = (acc, tr) := by
  rw [upsert_data_batches_go]

theorem go_cons (ok : Nat → Nat → Bool) (b1 : Nat) (c : String) (p : Point)
    (rest : List Point) (j : Nat) (acc : List Nat) (tr : List UpsertReq) :
    upsert_data_batches_go ok b1 c (p :: rest) j acc tr =
      if ok j 0 then
        upsert_data_batches_go ok b1 c (rest.drop b1) (j + 1)
          (acc ++ (p :: rest.take b1).map Point.id)
          (tr ++ [⟨c, p :: rest.take b1, true⟩])
      else if ok j 1 then
        upsert_data_batches_go ok b1 c (rest.drop b1) (j + 1)
          (acc ++ (p :: rest.take b1).map Point.id)
          (tr ++ [⟨c, p :: rest.take b1, true⟩, ⟨c, p :: rest.take b1, true⟩])
      else
        (acc, tr ++ [⟨c, p :: rest.take b1, true⟩, ⟨c, p :: rest.take b1, true⟩]) := by
  rw [upsert_data_batches_go]

theorem trace_all_nil (ok : Nat → Nat → Bool) (b1 : Nat) (c : String) (j : Nat) :
    trace_all ok b1 c [] j = [] := by
  rw [trace_all]

theorem trace_all_cons (ok : Nat → Nat → Bool) (b1 : Nat) (c : String)
    (p : Point) (rest : List Point) (j : Nat) :
    trace_all ok b1 c (p :: rest) j =
      (if ok j 0 then [(⟨c, p :: rest.take b1, true⟩ : UpsertReq)]
       else [⟨c, p :: rest.take b1, true⟩, ⟨c, p :: rest.take b1, true⟩]) ++
        trace_all ok b1 c (rest.drop b1) (j + 1) := by
  rw [trace_all]

theorem chunk_append_drop (b1 : Nat) (p : Point) (rest : List Point) :
    (p :: rest.take b1) ++ rest.drop b1 = p :: rest := by
  simp [List.take_append_drop]

theorem go_spec (ok : Nat → Nat → Bool) (b1 : Nat) (c : String) :
    ∀ l : List Point, ∀ j : Nat, ∀ acc : List Nat, ∀ tr : List UpsertReq,
    (∀ i, i < (chunks b1 l).length → ok (j + i) 0 = true ∨ ok (j + i) 1 = true) →
    upsert_data_batches_go ok b1 c l j acc tr =
      (acc ++ l.map Point.id, tr ++ trace_all ok b1 c l j) := by
  intro l
  induction l using chunks.induct b1 with
  | case1 =>
      intro j acc tr _
      simp [go_nil, trace_all_nil]
  | case2 p rest ih =>
      intro j acc tr hok
      have hlen : 0 < (chunks b1 (p :: rest)).length := by
        rw [chunks_cons]; simp
      have h0 : ok j 0 = true ∨ ok j 1 = true := by
        have := hok 0 hlen
        simpa using this
      have hshift : ∀ i, i < (chunks b1 (rest.drop b1)).length →
          ok (j + 1 + i) 0 = true ∨ ok (j + 1 + i) 1 = true := by
        intro i hi
        have hi2 : i + 1 < (chunks b1 (p :: rest)).length := by
          rw [chunks_cons]; simpa using Nat.succ_lt_succ hi
        have := hok (i + 1) hi2
        have harith : j + (i + 1) = j + 1 + i := by omega
        rwa [harith] at this
      have hmap : (p :: rest.take b1).map Point.id ++ (rest.drop b1).map Point.id
          = (p :: rest).map Point.id := by
        rw [← List.map_append, chunk_append_drop]
      rcases h0 with h | h
      · rw [go_cons, if_pos h, ih (j + 1) _ _ hshift, trace_all_cons, if_pos h]
        simp [hmap, List.append_assoc]
      · rcases hfirst : ok j 0 with hf | hf
        · rw [go_cons, hfirst, if_neg (by simp), if_pos h,
            ih (j + 1) _ _ hshift, trace_all_cons, hfirst, if_neg (by simp)]
          simp [hmap, List.append_assoc]
        · rw [go_cons, hfirst, if_pos rfl, ih (j + 1) _ _ hshift,
            trace_all_cons, hfirst, if_pos rfl]
          simp [hmap, List.append_assoc]

theorem trace_all_mem (ok : Nat → Nat → Bool) (b1 : Nat) (c : String) :
    ∀ l : List Point, ∀ j i : Nat, i < (chunks b1 l).length →
    (⟨c, (chunks b1 l).getD i [], true⟩ : UpsertReq) ∈ trace_all ok b1 c l j := by
  intro l
  induction l using chunks.induct b1 with
  | case1 => intro j i hi; rw [chunks_nil] at hi; simp at hi
  | case2 p rest ih =>
      intro j i hi
      rw [trace_all_cons]
      cases i with
      | zero =>
          rw [chunks_cons]
          apply List.mem_append_left
          cases hok : ok j 0 <;> simp
      | succ k =>
          apply List.mem_append_right
          rw [chunks_cons] at hi ⊢
          simp only [List.getD_cons_succ]
          exact ih (j + 1) k (by simpa using hi)

theorem go_fail_spec (ok : Nat → Nat → Bool) (b1 : Nat) (c : String) :
    ∀ f : Nat, ∀ l : List Point, ∀ j : Nat, ∀ acc : List Nat, ∀ tr : List UpsertReq,
    f < (chunks b1 l).length →
    (∀ i, i < f → ok (j + i) 0 = true ∨ ok (j + i) 1 = true) →
    ok (j + f) 0 = false → ok (j + f) 1 = false →
    (upsert_data_batches_go ok b1 c l j acc tr).1
        = acc ++ (l.take (f * (b1 + 1))).map Point.id ∧
    ∀ req ∈ (upsert_data_batches_go ok b1 c l j acc tr).2,
      req ∈ tr ∨ ∃ i, i ≤ f ∧ req = ⟨c, (chunks b1 l).getD i [], true⟩ := by
  intro f
  induction f with
  | zero =>
      intro l j acc tr hlt _ h0 h1
      cases l with
      | nil => rw [chunks_nil] at hlt; simp at hlt
      | cons p rest =>
          rw [Nat.add_zero] at h0 h1
          rw [go_cons, h0, if_neg (by simp), h1, if_neg (by simp)]
          constructor
          · simp
          · intro req hreq
            rcases List.mem_append.mp hreq with h | h
            · exact Or.inl h
            · refine Or.inr ⟨0, Nat.le_refl 0, ?_⟩
              rw [chunks_cons]
              simp at h
              simp [h]
  | succ f ih =>
      intro l j acc tr hlt hok h0 h1
      cases l with
      | nil => rw [chunks_nil] at hlt; simp at hlt
      | cons p rest =>
          have hlen2 : f < (chunks b1 (rest.drop b1)).length := by
            rw [chunks_cons] at hlt
            simpa using hlt
          have hshift : ∀ i, i < f → ok (j + 1 + i) 0 = true ∨ ok (j + 1 + i) 1 = true := by
            intro i hi
            have := hok (i + 1) (by omega)
            have harith : j + (i + 1) = j + 1 + i := by omega
            rwa [harith] at this
          have h0s : ok (j + 1 + f) 0 = false := by
            have harith : j + (f + 1) = j + 1 + f := by omega
            rwa [harith] at h0
          have h1s : ok (j + 1 + f) 1 = false := by
            have harith : j + (f + 1) = j + 1 + f := by omega
            rwa [harith] at h1
          have htake : (p :: rest).take ((f + 1) * (b1 + 1))
              = (p :: rest.take b1) ++ (rest.drop b1).take (f * (b1 + 1)) := by
            have h : (f + 1) * (b1 + 1) = (b1 + 1) + f * (b1 + 1) := by ring
            rw [h, List.take_add, List.take_succ_cons, List.drop_succ_cons]
          have hmem : ∀ req ∈ (upsert_data_batches_go ok b1 c (rest.drop b1) (j + 1)
                (acc ++ (p :: rest.take b1).map Point.id)
                (tr ++ [(⟨c, p :: rest.take b1, true⟩ : UpsertReq)])).2,
              req ∈ tr ++ [(⟨c, p :: rest.take b1, true⟩ : UpsertReq)] ∨
                ∃ i, i ≤ f ∧ req = ⟨c, (chunks b1 (rest.drop b1)).getD i [], true⟩ :=
            (ih (rest.drop b1) (j + 1) _ _ hlen2 hshift h0s h1s).2
          have hmem2 : ∀ req ∈ (upsert_data_batches_go ok b1 c (rest.drop b1) (j + 1)
                (acc ++ (p :: rest.take b1).map Point.id)
                (tr ++ [(⟨c, p :: rest.take b1, true⟩ : UpsertReq),
                        (⟨c, p :: rest.take b1, true⟩ : UpsertReq)])).2,
              req ∈ tr ++ [(⟨c, p :: rest.take b1, true⟩ : UpsertReq),
                           (⟨c, p :: rest.take b1, true⟩ : UpsertReq)] ∨
                ∃ i, i ≤ f ∧ req = ⟨c, (chunks b1 (rest.drop b1)).getD i [], true⟩ :=
            (ih (rest.drop b1) (j + 1) _ _ hlen2 hshift h0s h1s).2
          have hfix : ∀ req : UpsertReq,
              (∃ i, i ≤ f ∧ req = ⟨c, (chunks b1 (rest.drop b1)).getD i [], true⟩) →
              ∃ i, i ≤ f + 1 ∧ req = ⟨c, (chunks b1 (p :: rest)).getD i [], true⟩ := by
            rintro req ⟨i, hif, hreq⟩
            refine ⟨i + 1, by omega, ?_⟩
            rw [chunks_cons, List.getD_cons_succ]
            exact hreq
          have hhead : ∀ req : UpsertReq,
              req = (⟨c, p :: rest.take b1, true⟩ : UpsertReq) →
              ∃ i, i ≤ f + 1 ∧ req = ⟨c, (chunks b1 (p :: rest)).getD i [], true⟩ := by
            intro req hreq
            refine ⟨0, by omega, ?_⟩
            rw [chunks_cons]
            simpa using hreq
          have h0first : ok j 0 = true ∨ ok j 1 = true := by
            have := hok 0 (by omega)
            simpa using this
          rcases hfirst : ok j 0 with hf | hf
          · have h : ok j 1 = true := by
              rcases h0first with h2 | h2
              · rw [hfirst] at h2; exact absurd h2 (by simp)
              · exact h2
            rw [go_cons, hfirst, if_neg (by simp), if_pos h]
            constructor
            · rw [(ih (rest.drop b1) (j + 1) _ _ hlen2 hshift h0s h1s).1]
              rw [htake]
              simp [List.append_assoc]
            · intro req hreq
              rcases hmem2 req hreq with hin | hex
              · rcases List.mem_append.mp hin with hin2 | hin2
                · exact Or.inl hin2
                · have hr : req = (⟨c, p :: rest.take b1, true⟩ : UpsertReq) := by
                    simpa using hin2
                  exact Or.inr (hhead req hr)
              · exact Or.inr (hfix req hex)
          · rw [go_cons, hfirst, if_pos rfl]
            constructor
            · rw [(ih (rest.drop b1) (j + 1) _ _ hlen2 hshift h0s h1s).1]
              rw [htake]
              simp [List.append_assoc]
            · intro req hreq
              rcases hmem req hreq with hin | hex
              · rcases List.mem_append.mp hin with hin2 | hin2
                · exact Or.inl hin2
                · have hr : req = (⟨c, p :: rest.take b1, true⟩ : UpsertReq) := by
                    simpa using hin2
                  exact Or.inr (hhead req hr)
              · exact Or.inr (hfix req hex)

/-- Case analysis for a successfully resolved collection name. -/
theorem resolve_some_cases (e a : Option String) (c : String)
    (h : resolve_collection_name e a = some c) :
    (truthyOptStr e = true ∧ e.getD "" = c) ∨
    (truthyOptStr e = false ∧ truthyOptStr a = true ∧ a.getD "" = c) := by
  unfold resolve_collection_name at h
  rcases he : truthyOptStr e with hf | hf
  · rw [he] at h
    simp only [Bool.false_eq_true, if_false] at h
    rcases ha : truthyOptStr a with ha2 | ha2
    · rw [ha] at h
      simp at h
    · rw [ha] at h
      simp only [if_true] at h
      exact Or.inr ⟨rfl, rfl, by simp [h]⟩
  · rw [he] at h
    simp only [if_true] at h
    exact Or.inl ⟨rfl, by simp [h]⟩

/-- Every request issued by the upsert loop targets the resolved
collection. -/
theorem go_trace_collection (ok : Nat → Nat → Bool) (b1 : Nat) (c : String) :
    ∀ l : List Point, ∀ j : Nat, ∀ acc : List Nat, ∀ tr : List UpsertReq,
    (∀ req ∈ tr, req.collection = c) →
    ∀ req ∈ (upsert_data_batches_go ok b1 c l j acc tr).2, req.collection = c := by
  intro l
  induction l using chunks.induct b1 with
  | case1 =>
      intro j acc tr htr
      rw [go_nil]
      exact htr
  | case2 p rest ih =>
      intro j acc tr htr
      have hext : ∀ n : List UpsertReq,
          (∀ req ∈ n, req.collection = c) →
          ∀ req ∈ tr ++ n, req.collection = c := by
        intro n hn req hreq
        rcases List.mem_append.mp hreq with h | h
        · exact htr req h
        · exact hn req h
      rw [go_cons]
      rcases hfirst : ok j 0 with hf | hf
      · rcases hsecond : ok j 1 with hs | hs
        · rw [if_neg (by simp), if_neg (by simp)]
          exact hext _ (by intro req hreq; simp at hreq; simp [hreq])
        · rw [if_neg (by simp), if_pos rfl]
          exact ih (j + 1) _ _ (hext _ (by intro req hreq; simp at hreq; simp [hreq]))
      · rw [if_pos rfl]
        exact ih (j + 1) _ _ (hext _ (by intro req hreq; simp at hreq; simp [hreq]))

/-- When every first attempt succeeds, the request trace is exactly one
request per chunk, in order. -/
theorem trace_all_of_first_ok (ok : Nat → Nat → Bool) (b1 : Nat) (c : String)
    (hok : ∀ j, ok j 0 = true) :
    ∀ l : List Point, ∀ j : Nat,
    trace_all ok b1 c l j
      = (chunks b1 l).map (fun ch => (⟨c, ch, true⟩ : UpsertReq)) := by
  intro l
  induction l using chunks.induct b1 with
  | case1 => intro j; simp [trace_all_nil, chunks_nil]
  | case2 p rest ih =>
      intro j
      rw [trace_all_cons, chunks_cons]
      simp [hok j, ih (j + 1)]

/-- The branch structure of `upsert_data_batches` collapses to the loop
on the resolved collection name. -/
theorem upsert_data_batches_eq_go (ok : Nat → Nat → Bool) (P : List Point)
    (b1 : Nat) (collection_name : Option String) (s : WrapperState) (c : String)
    (hres : resolve_collection_name collection_name s.collection_name = some c) :
    upsert_data_batches ok P (b1 + 1) collection_name s
      = ((.ok (upsert_data_batches_go ok b1 c P 0 [] []).1,
          (upsert_data_batches_go ok b1 c P 0 [] []).2), s) := by
  rcases resolve_some_cases _ _ _ hres with ⟨he, hc⟩ | ⟨he, ha, hc⟩
  · simp [upsert_data_batches, he, hc]
  · simp [upsert_data_batches, he, ha, hc]

/-- An example instance state whose active collection is `"col"`. -/
def sColW : WrapperState :=
  ⟨.byApiKey "http://localhost:6333" "k", .dot, 4, some "col", false, 0⟩

/-- An example instance state with no active collection. -/
def sNoneW : WrapperState :=
  ⟨.byApiKey "http://localhost:6333" "k", .dot, 4, none, false, 0⟩

/-- C1: if some chunk of `upsert_data_batches` fails on both its first
attempt and its single retry with a transient (response-handling)
failure, the loop stops immediately: the call returns exactly the ids of
the points of the chunks that fully succeeded before the failing chunk,
and no chunk after the failing one is ever submitted to the service. -/
theorem upsert_data_batches_double_failure_aborts
    (ok : Nat → Nat → Bool) (P : List Point) (b1 f : Nat)
    (collection_name : Option String) (s : WrapperState) (c : String)
    (hres : resolve_collection_name collection_name s.collection_name = some c)
    (hf : f < (chunks b1 P).length)
    (hbefore : ∀ i, i < f → ok i 0 = true ∨ ok i 1 = true)
    (h0 : ok f 0 = false) (h1 : ok f 1 = false) :
    (upsert_data_batches ok P (b1 + 1) collection_name s).1.1
        = .ok ((P.take (f * (b1 + 1))).map Point.id) ∧
    ∀ req ∈ (upsert_data_batches ok P (b1 + 1) collection_name s).1.2,
      ∃ i, i ≤ f ∧ req = ⟨c, (chunks b1 P).getD i [], true⟩ := by
  have hb : ∀ i, i < f → ok (0 + i) 0 = true ∨ ok (0 + i) 1 = true := by
    intro i hi
    simpa using hbefore i hi
  have h0z : ok (0 + f) 0 = false := by simpa using h0
  have h1z : ok (0 + f) 1 = false := by simpa using h1
  have heq := upsert_data_batches_eq_go ok P b1 collection_name s c hres
  have hspec := go_fail_spec ok b1 c f P 0 [] [] hf hb h0z h1z
  constructor
  · rw [heq]
    show Except.ok (upsert_data_batches_go ok b1 c P 0 [] []).1 = _
    rw [hspec.1]
    simp
  · rw [heq]
    intro req hreq
    rcases hspec.2 req hreq with h | h
    · simp at h
    · exact h

/-- Closed instance of C1: points 1,2,3 with batch size 1, where the
second chunk fails twice; only the first chunk's id is returned. -/
theorem upsert_data_batches_double_failure_aborts_witness :
    (upsert_data_batches (fun i _ => decide (i ≠ 1))
        [⟨1, []⟩, ⟨2, []⟩, ⟨3, []⟩] 1 none sColW).1.1 = .ok [1] := by
  have h := upsert_data_batches_double_failure_aborts (fun i _ => decide (i ≠ 1))
    [⟨1, []⟩, ⟨2, []⟩, ⟨3, []⟩] 0 1 none sColW "col" (by rfl)
    (by rw [chunks_length]; decide) (by decide) (by decide) (by decide)
  exact h.1.trans (by rfl)

/-- C2: with a backend that never fails, `upsert_data_batches` submits
the consecutive chunks of at most `batch_size` points in order and
returns the ids of all points in the order of the input; the chunking
has `ceil(|P| / b)` chunks, each of size at most `b`, concatenating back
to `P`. -/
theorem upsert_data_batches_fault_free_spec
    (P : List Point) (b1 : Nat) (collection_name : Option String)
    (s : WrapperState) (c : String)
    (hres : resolve_collection_name collection_name s.collection_name = some c) :
    upsert_data_batches (fun _ _ => true) P (b1 + 1) collection_name s
        = ((.ok (P.map Point.id),
            (chunks b1 P).map (fun ch => (⟨c, ch, true⟩ : UpsertReq))), s)
    ∧ (chunks b1 P).length = (P.length + b1) / (b1 + 1)
    ∧ (∀ ch ∈ chunks b1 P, ch.length ≤ b1 + 1)
    ∧ (chunks b1 P).flatten = P := by
  refine ⟨?_, chunks_length b1 P, chunks_size_le b1 P, chunks_join b1 P⟩
  rw [upsert_data_batches_eq_go (fun _ _ => true) P b1 collection_name s c hres]
  rw [go_spec (fun _ _ => true) b1 c P 0 [] [] (by intro i _; exact Or.inl rfl)]
  rw [trace_all_of_first_ok (fun _ _ => true) b1 c (fun _ => rfl) P 0]
  simp

/-- Closed instance of C2: three points with batch size 2 split into a
chunk of two and a chunk of one, ids returned in input order. -/
theorem upsert_data_batches_fault_free_spec_witness :
    upsert_data_batches (fun _ _ => true)
        [⟨1, [10]⟩, ⟨2, [20]⟩, ⟨3, [30]⟩] 2 none sColW
      = ((.ok [1, 2, 3],
          [⟨"col", [⟨1, [10]⟩, ⟨2, [20]⟩], true⟩,
           ⟨"col", [⟨3, [30]⟩], true⟩]), sColW) := by
  have h := upsert_data_batches_fault_free_spec
    [⟨1, [10]⟩, ⟨2, [20]⟩, ⟨3, [30]⟩] 1 none sColW "col" (by rfl)
  rw [h.1]
  have hch : chunks 1 [(⟨1, [10]⟩ : Point), ⟨2, [20]⟩, ⟨3, [30]⟩]
      = [[⟨1, [10]⟩, ⟨2, [20]⟩], [⟨3, [30]⟩]] := by
    simp [chunks_cons, chunks_nil]
  rw [hch]
  rfl

/-- C9: if one chunk's first attempt fails transiently but its single
retry succeeds, and every other chunk succeeds on its first attempt,
then every id of `P` is returned exactly once and in order, and every
chunk is submitted to the service. -/
theorem upsert_data_batches_retry_success_continues
    (ok : Nat → Nat → Bool) (P : List Point) (b1 f : Nat)
    (collection_name : Option String) (s : WrapperState) (c : String)
    (hres : resolve_collection_name collection_name s.collection_name = some c)
    (hf : f < (chunks b1 P).length)
    (hfail : ok f 0 = false) (hretry : ok f 1 = true)
    (hothers : ∀ i, i ≠ f → ok i 0 = true) :
    (upsert_data_batches ok P (b1 + 1) collection_name s).1.1
        = .ok (P.map Point.id) ∧
    ∀ i, i < (chunks b1 P).length →
      (⟨c, (chunks b1 P).getD i [], true⟩ : UpsertReq)
        ∈ (upsert_data_batches ok P (b1 + 1) collection_name s).1.2 := by
  have hok : ∀ i, i < (chunks b1 P).length →
      ok (0 + i) 0 = true ∨ ok (0 + i) 1 = true := by
    intro i _
    by_cases hif : i = f
    · subst hif
      exact Or.inr (by simpa using hretry)
    · exact Or.inl (by simpa using hothers i hif)
  have heq := upsert_data_batches_eq_go ok P b1 collection_name s c hres
  have hspec := go_spec ok b1 c P 0 [] [] hok
  constructor
  · rw [heq]
    show Except.ok (upsert_data_batches_go ok b1 c P 0 [] []).1 = _
    rw [hspec]
    simp
  · intro i hi
    rw [heq]
    show _ ∈ (upsert_data_batches_go ok b1 c P 0 [] []).2
    rw [hspec]
    simp only [List.nil_append]
    exact trace_all_mem ok b1 c P 0 i hi

/-- Closed instance of C9: the second of three single-point chunks fails
once and succeeds on retry; all three ids come back in order. -/
theorem upsert_data_batches_retry_success_continues_witness :
    (upsert_data_batches (fun i a => decide (i ≠ 1 ∨ a = 1))
        [⟨1, []⟩, ⟨2, []⟩, ⟨3, []⟩] 1 none sColW).1.1 = .ok [1, 2, 3] := by
  have h := upsert_data_batches_retry_success_continues
    (fun i a => decide (i ≠ 1 ∨ a = 1))
    [⟨1, []⟩, ⟨2, []⟩, ⟨3, []⟩] 0 1 none sColW "col" (by rfl)
    (by rw [chunks_length]; decide) (by decide) (by decide)
    (by intro i hi; simp [hi])
  exact h.1.trans (by rfl)

/-- C3: for every resolvable collection name, if both the first search
attempt and the single retry fail with a transient communication or
unexpected-response failure, `search` returns the empty list instead of
raising. -/
theorem search_double_failure_returns_empty
    (svc : Nat → Option (List Nat)) (query_vector : List Int) (limit : Nat)
    (query_filter : Option Nat) (collection_name : Option String)
    (with_vectors : Bool) (score_threshold : Int) (s : WrapperState) (c : String)
    (hres : resolve_collection_name collection_name s.collection_name = some c)
    (h0 : svc 0 = none) (h1 : svc 1 = none) :
    (search svc query_vector limit query_filter collection_name
        with_vectors score_threshold s).1.1 = .ok [] := by
  rcases resolve_some_cases _ _ _ hres with ⟨he, _⟩ | ⟨he, ha, _⟩
  · simp [search, he, h0, h1]
  · simp [search, he, ha, h0, h1]

/-- Closed instance of C3: both attempts fail, the call returns `.ok []`. -/
theorem search_double_failure_returns_empty_witness :
    (search (fun _ => none) [1, 2] 10 none (some "c2") false 0 sColW).1.1
      = .ok [] :=
  search_double_failure_returns_empty (fun _ => none) [1, 2] 10 none
    (some "c2") false 0 sColW "c2" (by rfl) rfl rfl

/-- Counterexample to C5 as stated: with the collection name resolved
from the active collection, the service call issued by `search` carries
neither `with_vectors` nor `score_threshold`, although the caller passed
`with_vectors = true` and `score_threshold = 5`. -/
theorem search_active_branch_drops_forwarding_cex :
    (search (fun _ => some []) [1] 10 none none true 5 sColW).1.2
        = [⟨"col", [1], 10, none, none, none⟩] ∧
    (none : Option Bool) ≠ some true ∧ (none : Option Int) ≠ some 5 := by
  refine ⟨?_, by simp, by simp⟩
  simp [search, sColW, truthyOptStr]

/-- C5 amended: `score_threshold` and `with_vectors` are forwarded
unchanged to the service on both attempts when the collection name is
given explicitly; when the name is resolved from the instance's active
collection, the wrapper omits both arguments from the service call, so
the client defaults apply. -/
theorem search_forwarding_by_branch
    (svc : Nat → Option (List Nat)) (query_vector : List Int) (limit : Nat)
    (query_filter : Option Nat) (collection_name : Option String)
    (with_vectors : Bool) (score_threshold : Int) (s : WrapperState) :
    (truthyOptStr collection_name = true →
      ∀ req ∈ (search svc query_vector limit query_filter collection_name
          with_vectors score_threshold s).1.2,
        req.with_vectors = some with_vectors ∧
        req.score_threshold = some score_threshold) ∧
    (truthyOptStr collection_name = false →
      truthyOptStr s.collection_name = true →
      ∀ req ∈ (search svc query_vector limit query_filter collection_name
          with_vectors score_threshold s).1.2,
        req.with_vectors = none ∧ req.score_threshold = none) := by
  constructor
  · intro he req hreq
    rcases h0 : svc 0 with h | r
    · rcases h1 : svc 1 with h2 | r2
      · simp [search, he, h0, h1] at hreq
        simp [hreq]
      · simp [search, he, h0, h1] at hreq
        simp [hreq]
    · simp [search, he, h0] at hreq
      simp [hreq]
  · intro he ha req hreq
    rcases h0 : svc 0 with h | r
    · rcases h1 : svc 1 with h2 | r2
      · simp [search, he, ha, h0, h1] at hreq
        simp [hreq]
      · simp [search, he, ha, h0, h1] at hreq
        simp [hreq]
    · simp [search, he, ha, h0] at hreq
      simp [hreq]

/-- Closed instance of the amended C5: an explicit collection name
forwards `with_vectors = true` and `score_threshold = 7` unchanged. -/
theorem search_forwarding_by_branch_witness :
    ((search (fun _ => some [9]) [1] 10 none (some "c2") true 7 sColW).1.2.getD 0
        ⟨"", [], 0, none, none, none⟩).with_vectors = some true := by
  have h := (search_forwarding_by_branch (fun _ => some [9]) [1] 10 none
    (some "c2") true 7 sColW).1 (by rfl)
  exact (h _ (by simp [search, truthyOptStr])).1

/-- C6: whenever `delete_collection` completes without raising, the
active-collection field is `None` afterwards, also when an explicit name
different from the active collection was deleted. -/
theorem delete_collection_clears_active_collection
    (svcOk : Bool) (collection_name : Option String) (s : WrapperState)
    (h : (delete_collection svcOk collection_name s).1.1 = .ok ()) :
    ((delete_collection svcOk collection_name s).2).collection_name = none := by
  rcases he : truthyOptStr collection_name with hf | hf
  · rcases ha : truthyOptStr s.collection_name with hf2 | hf2
    · simp [delete_collection, he, ha] at h
    · rcases hd : svcOk with hf3 | hf3
      · simp [delete_collection, he, ha, hd] at h
      · simp [delete_collection, he, ha, hd]
  · rcases hd : svcOk with hf3 | hf3
    · simp [delete_collection, he, hd] at h
    · simp [delete_collection, he, hd]

/-- Closed instance of C6: deleting the explicit name `"other"` while
the active collection is `"col"` still clears the active collection. -/
theorem delete_collection_clears_active_collection_witness :
    ((delete_collection true (some "other") sColW).2).collection_name = none :=
  delete_collection_clears_active_collection true (some "other") sColW (by rfl)

/-- Counterexample to C7 as stated: an API key *is* supplied (the empty
string), yet construction raises `ClientConnectionException`, because
the constructor tests Python truthiness rather than presence. -/
theorem qdrant_wrapper_init_empty_api_key_cex :
    qdrant_wrapper_init "http://localhost:6333" none (some "") .dot 1536
        none false 0 = .error .clientConnection ∧
    (some "" : Option String) ≠ none := by
  exact ⟨by rfl, by simp⟩

/-- C7 amended: construction raises `ClientConnectionException` exactly
when neither a truthy port (non-`None`, nonzero) nor a truthy API key
(non-`None`, non-empty) is supplied; when at least one is truthy it
returns a constructed instance. -/
theorem qdrant_wrapper_init_error_iff_untruthy
    (cluster_url : String) (port : Option Int) (api_key : Option String)
    (distance : DistanceMetric) (vector_size : Nat)
    (collection_name : Option String) (print_logs : Bool) (logger_fn : Nat) :
    (qdrant_wrapper_init cluster_url port api_key distance vector_size
          collection_name print_logs logger_fn = .error .clientConnection
        ↔ truthyOptInt port = false ∧ truthyOptStr api_key = false) ∧
    ((∃ st, qdrant_wrapper_init cluster_url port api_key distance vector_size
          collection_name print_logs logger_fn = .ok st)
        ↔ (truthyOptInt port = true ∨ truthyOptStr api_key = true)) := by
  rcases hp : truthyOptInt port with hf | hf
  · rcases hk : truthyOptStr api_key with hf2 | hf2
    · simp [qdrant_wrapper_init, hp, hk]
    · simp [qdrant_wrapper_init, hp, hk]
  · simp [qdrant_wrapper_init, hp]

/-- C8: `create_collection` raises `CollectionNameNotProvidedException`
for the empty name, and maps the service's unexpected-response signal to
`CollectionAlreadyExistsException` unconditionally for any non-empty
name, state and parameters. -/
theorem create_collection_error_mapping :
    (∀ (distance : DistanceMetric) (vector_size : Nat)
        (set_collection_name : Bool) (s : WrapperState) (svc : SvcCreateResult),
      create_collection svc "" distance vector_size set_collection_name s
        = (.error .collectionNameNotProvided, s)) ∧
    (∀ (distance : DistanceMetric) (vector_size : Nat)
        (set_collection_name : Bool) (s : WrapperState) (name : String),
      name ≠ "" →
      create_collection .unexpectedResponse name distance vector_size
          set_collection_name s
        = (.error .collectionAlreadyExists, s)) := by
  constructor
  · intro distance vector_size sb s svc
    simp [create_collection]
  · intro distance vector_size sb s name hname
    simp [create_collection, hname]

/-- Closed instance of C8: creating `"col"` twice in a row: the second
attempt sees the service's unexpected-response signal and raises
`CollectionAlreadyExistsException`. -/
theorem create_collection_error_mapping_witness :
    create_collection .unexpectedResponse "col" .cosine 1536 true sColW
      = (.error .collectionAlreadyExists, sColW) :=
  create_collection_error_mapping.2 .cosine 1536 true sColW "col" (by simp)

/-- A truthy optional string is not `none`. -/
theorem truthyOptStr_ne_none {e : Option String} (h : truthyOptStr e = true) :
    e ≠ none := by
  cases e
  · simp [truthyOptStr] at h
  · simp

/-- The resolved collection name is `none` exactly when both the
explicit and the active name are falsy. -/
theorem resolve_none_iff (e a : Option String) :
    resolve_collection_name e a = none ↔
      truthyOptStr e = false ∧ truthyOptStr a = false := by
  unfold resolve_collection_name
  rcases he : truthyOptStr e with hf | hf
  · rcases ha : truthyOptStr a with h2 | h2
    · simp
    · simp [truthyOptStr_ne_none ha]
  · simp [truthyOptStr_ne_none he]

theorem upsert_data_error_iff (svcOk : Bool) (pts : List Point)
    (cn : Option String) (s : WrapperState) :
    (upsert_data svcOk pts cn s).1.1 = .error .collectionNameNotProvided ↔
      resolve_collection_name cn s.collection_name = none := by
  rw [resolve_none_iff]
  rcases he : truthyOptStr cn with hf | hf
  · rcases ha : truthyOptStr s.collection_name with h2 | h2
    · simp [upsert_data, he, ha]
    · cases svcOk <;> simp [upsert_data, he, ha]
  · cases svcOk <;> simp [upsert_data, he]

theorem upsert_data_batches_error_iff (ok : Nat → Nat → Bool)
    (pts : List Point) (batch_size : Nat) (cn : Option String)
    (s : WrapperState) :
    (upsert_data_batches ok pts batch_size cn s).1.1
        = .error .collectionNameNotProvided ↔
      resolve_collection_name cn s.collection_name = none := by
  rw [resolve_none_iff]
  rcases he : truthyOptStr cn with hf | hf
  · rcases ha : truthyOptStr s.collection_name with h2 | h2
    · simp [upsert_data_batches, he, ha]
    · cases batch_size <;> simp [upsert_data_batches, he, ha]
  · cases batch_size <;> simp [upsert_data_batches, he]

theorem search_error_iff (svc : Nat → Option (List Nat))
    (query_vector : List Int) (limit : Nat) (query_filter : Option Nat)
    (cn : Option String) (with_vectors : Bool) (score_threshold : Int)
    (s : WrapperState) :
    (search svc query_vector limit query_filter cn with_vectors
        score_threshold s).1.1 = .error .collectionNameNotProvided ↔
      resolve_collection_name cn s.collection_name = none := by
  rw [resolve_none_iff]
  rcases he : truthyOptStr cn with hf | hf
  · rcases ha : truthyOptStr s.collection_name with h2 | h2
    · simp [search, he, ha]
    · cases h0 : svc 0 <;> cases h1 : svc 1 <;> simp [search, he, ha, h0, h1]
  · cases h0 : svc 0 <;> cases h1 : svc 1 <;> simp [search, he, h0, h1]

theorem filter_search_error_iff (page : List Nat × Option Nat)
    (scroll_filter : Nat) (cn : Option String) (limit : Nat)
    (with_vectors : Bool) (s : WrapperState) :
    (filter_search page scroll_filter cn limit with_vectors s).1.1
        = .error .collectionNameNotProvided ↔
      resolve_collection_name cn s.collection_name = none := by
  rw [resolve_none_iff]
  rcases he : truthyOptStr cn with hf | hf
  · rcases ha : truthyOptStr s.collection_name with h2 | h2
    · simp [filter_search, he, ha]
    · simp [filter_search, he, ha]
  · simp [filter_search, he]

theorem delete_collection_error_iff (dOk : Bool) (cn : Option String)
    (s : WrapperState) :
    (delete_collection dOk cn s).1.1 = .error .collectionNameNotProvided ↔
      resolve_collection_name cn s.collection_name = none := by
  rw [resolve_none_iff]
  rcases he : truthyOptStr cn with hf | hf
  · rcases ha : truthyOptStr s.collection_name with h2 | h2
    · simp [delete_collection, he, ha]
    · cases dOk <;> simp [delete_collection, he, ha]
  · cases dOk <;> simp [delete_collection, he]

theorem delete_data_error_iff (sel : Option Nat) (cn : Option String)
    (s : WrapperState) :
    (delete_data sel cn s).1.1 = .error .collectionNameNotProvided ↔
      resolve_collection_name cn s.collection_name = none := by
  rw [resolve_none_iff]
  rcases he : truthyOptStr cn with hf | hf
  · rcases ha : truthyOptStr s.collection_name with h2 | h2
    · simp [delete_data, he, ha]
    · simp [delete_data, he, ha]
  · simp [delete_data, he]

/-- Counterexample to C4 as stated: with no active collection set,
`create_meta_index` (which takes no per-call collection name) does not
raise `CollectionNameNotProvidedException`; it succeeds and forwards
`None` as the collection to the service. -/
theorem create_meta_index_missing_guard_cex :
    (create_meta_index "category" "keyword" sNoneW).1.1 = .ok () ∧
    (create_meta_index "category" "keyword" sNoneW).1.1
        ≠ .error .collectionNameNotProvided ∧
    (create_meta_index "category" "keyword" sNoneW).1.2
        = [⟨none, "category", "keyword"⟩] := by
  refine ⟨by rfl, ?_, by rfl⟩
  simp [create_meta_index]

/-- C4 amended: the six operations that accept a collection name
(`upsert_data`, `upsert_data_batches`, `search`, `filter_search`,
`delete_collection`, `delete_data`) all resolve the target collection by
the same precedence — truthy explicit per-call name, else truthy active
collection, else `CollectionNameNotProvidedException` — raising exactly
when the precedence resolves to nothing and otherwise directing every
issued request at the resolved name.  `create_meta_index` is the
exception: it has no per-call name parameter and no guard, forwarding
the possibly-`None` active collection to the service. -/
theorem collection_ops_name_precedence
    (svcOk : Bool) (pts : List Point) (ok : Nat → Nat → Bool)
    (batch_size : Nat) (svc : Nat → Option (List Nat))
    (query_vector : List Int) (limit : Nat) (query_filter : Option Nat)
    (with_vectors : Bool) (score_threshold : Int)
    (page : List Nat × Option Nat) (scroll_filter : Nat) (sel : Option Nat)
    (dOk : Bool) (collection_name : Option String) (s : WrapperState) :
    ((upsert_data svcOk pts collection_name s).1.1
        = .error .collectionNameNotProvided
      ↔ resolve_collection_name collection_name s.collection_name = none) ∧
    ((upsert_data_batches ok pts batch_size collection_name s).1.1
        = .error .collectionNameNotProvided
      ↔ resolve_collection_name collection_name s.collection_name = none) ∧
    ((search svc query_vector limit query_filter collection_name
        with_vectors score_threshold s).1.1
        = .error .collectionNameNotProvided
      ↔ resolve_collection_name collection_name s.collection_name = none) ∧
    ((filter_search page scroll_filter collection_name limit
        with_vectors s).1.1 = .error .collectionNameNotProvided
      ↔ resolve_collection_name collection_name s.collection_name = none) ∧
    ((delete_collection dOk collection_name s).1.1
        = .error .collectionNameNotProvided
      ↔ resolve_collection_name collection_name s.collection_name = none) ∧
    ((delete_data sel collection_name s).1.1
        = .error .collectionNameNotProvided
      ↔ resolve_collection_name collection_name s.collection_name = none) ∧
    (∀ c, resolve_collection_name collection_name s.collection_name = some c →
      (∀ req ∈ (upsert_data svcOk pts collection_name s).1.2,
        req.collection = c) ∧
      (∀ req ∈ (upsert_data_batches ok pts batch_size collection_name s).1.2,
        req.collection = c) ∧
      (∀ req ∈ (search svc query_vector limit query_filter collection_name
          with_vectors score_threshold s).1.2, req.collection = c) ∧
      (∀ req ∈ (filter_search page scroll_filter collection_name limit
          with_vectors s).1.2, req.collection = c) ∧
      (∀ req ∈ (delete_collection dOk collection_name s).1.2,
        req.collection = c) ∧
      (∀ req ∈ (delete_data sel collection_name s).1.2,
        req.collection = c)) := by
  refine ⟨upsert_data_error_iff svcOk pts collection_name s,
    upsert_data_batches_error_iff ok pts batch_size collection_name s,
    search_error_iff svc query_vector limit query_filter collection_name
      with_vectors score_threshold s,
    filter_search_error_iff page scroll_filter collection_name limit
      with_vectors s,
    delete_collection_error_iff dOk collection_name s,
    delete_data_error_iff sel collection_name s, ?_⟩
  intro c hres
  have hcases := resolve_some_cases _ _ _ hres
  refine ⟨?_, ?_, ?_, ?_, ?_, ?_⟩
  · intro req hreq
    rcases hcases with ⟨he, hc⟩ | ⟨he, ha, hc⟩
    · simp [upsert_data, he] at hreq
      simp [hreq, hc]
    · simp [upsert_data, he, ha] at hreq
      simp [hreq, hc]
  · intro req hreq
    rcases hcases with ⟨he, hc⟩ | ⟨he, ha, hc⟩
    · cases batch_size with
      | zero => simp [upsert_data_batches, he] at hreq
      | succ b1 =>
          simp only [upsert_data_batches, he, if_pos] at hreq
          have := go_trace_collection ok b1 (collection_name.getD "") pts 0
            [] [] (by simp) req (by simpa using hreq)
          rw [hc] at this
          exact this
    · cases batch_size with
      | zero => simp [upsert_data_batches, he, ha] at hreq
      | succ b1 =>
          simp only [upsert_data_batches, he, ha, Bool.false_eq_true,
            if_false, if_pos] at hreq
          have := go_trace_collection ok b1 (s.collection_name.getD "") pts 0
            [] [] (by simp) req (by simpa using hreq)
          rw [hc] at this
          exact this
  · intro req hreq
    rcases hcases with ⟨he, hc⟩ | ⟨he, ha, hc⟩
    · cases h0 : svc 0 <;> cases h1 : svc 1 <;>
        simp [search, he, h0, h1] at hreq <;> simp [hreq, hc]
    · cases h0 : svc 0 <;> cases h1 : svc 1 <;>
        simp [search, he, ha, h0, h1] at hreq <;> simp [hreq, hc]
  · intro req hreq
    rcases hcases with ⟨he, hc⟩ | ⟨he, ha, hc⟩
    · simp [filter_search, he] at hreq
      simp [hreq, hc]
    · simp [filter_search, he, ha] at hreq
      simp [hreq, hc]
  · intro req hreq
    rcases hcases with ⟨he, hc⟩ | ⟨he, ha, hc⟩
    · cases dOk <;> simp [delete_collection, he] at hreq <;> simp [hreq, hc]
    · cases dOk <;> simp [delete_collection, he, ha] at hreq <;>
        simp [hreq, hc]
  · intro req hreq
    rcases hcases with ⟨he, hc⟩ | ⟨he, ha, hc⟩
    · simp [delete_data, he] at hreq
      simp [hreq, hc]
    · simp [delete_data, he, ha] at hreq
      simp [hreq, hc]

/-- Closed instance of the amended C4: an explicit name `"w"` wins over
an unset active collection and the upsert request targets `"w"`. -/
theorem collection_ops_name_precedence_witness :
    ((upsert_data true [] (some "w") sNoneW).1.2.getD 0
        ⟨"", [], false⟩).collection = "w" := by
  have h := (collection_ops_name_precedence true [] (fun _ _ => true) 1
    (fun _ => some []) [] 10 none false 0 ([], none) 0 none true
    (some "w") sNoneW).2.2.2.2.2.2 "w" (by rfl)
  exact h.1 _ (by simp [upsert_data, truthyOptStr])

/-- C10: the operations other than `create_collection` and
`delete_collection` never change the instance state (active collection,
distance, vector size, logging flag, log sink), whether they succeed or
raise; and the two operations that can raise
`CollectionNameNotProvidedException` while mutating state
(`create_collection` on an empty name, `delete_collection` with no
resolvable name) leave the state unchanged in that case. -/
theorem ops_preserve_instance_state
    (svcOk : Bool) (pts : List Point) (ok : Nat → Nat → Bool)
    (batch_size : Nat) (svc : Nat → Option (List Nat))
    (query_vector : List Int) (limit : Nat) (query_filter : Option Nat)
    (with_vectors : Bool) (score_threshold : Int)
    (page : List Nat × Option Nat) (scroll_filter : Nat) (sel : Option Nat)
    (field_name field_type : String) (csvc : SvcCreateResult)
    (distance : DistanceMetric) (vector_size : Nat)
    (set_collection_name : Bool) (dOk : Bool)
    (collection_name : Option String) (s : WrapperState) :
    (upsert_data svcOk pts collection_name s).2 = s ∧
    (upsert_data_batches ok pts batch_size collection_name s).2 = s ∧
    (search svc query_vector limit query_filter collection_name
        with_vectors score_threshold s).2 = s ∧
    (filter_search page scroll_filter collection_name limit
        with_vectors s).2 = s ∧
    (delete_data sel collection_name s).2 = s ∧
    (create_meta_index field_name field_type s).2 = s ∧
    (create_collection csvc "" distance vector_size
        set_collection_name s).2 = s ∧
    ((delete_collection dOk collection_name s).1.1
        = .error .collectionNameNotProvided →
      (delete_collection dOk collection_name s).2 = s) := by
  refine ⟨?_, ?_, ?_, ?_, ?_, ?_, ?_, ?_⟩
  · rcases he : truthyOptStr collection_name with hf | hf <;>
      rcases ha : truthyOptStr s.collection_name with h2 | h2 <;>
      simp [upsert_data, he, ha]
  · rcases he : truthyOptStr collection_name with hf | hf <;>
      rcases ha : truthyOptStr s.collection_name with h2 | h2 <;>
      cases batch_size <;> simp [upsert_data_batches, he, ha]
  · rcases he : truthyOptStr collection_name with hf | hf <;>
      rcases ha : truthyOptStr s.collection_name with h2 | h2 <;>
      cases h0 : svc 0 <;> cases h1 : svc 1 <;>
      simp [search, he, ha, h0, h1]
  · rcases he : truthyOptStr collection_name with hf | hf <;>
      rcases ha : truthyOptStr s.collection_name with h2 | h2 <;>
      simp [filter_search, he, ha]
  · rcases he : truthyOptStr collection_name with hf | hf <;>
      rcases ha : truthyOptStr s.collection_name with h2 | h2 <;>
      simp [delete_data, he, ha]
  · simp [create_meta_index]
  · cases csvc <;> cases set_collection_name <;> simp [create_collection]
  · rcases he : truthyOptStr collection_name with hf | hf <;>
      rcases ha : truthyOptStr s.collection_name with h2 | h2 <;>
      cases dOk <;> simp [delete_collection, he, ha]

/-- Closed instance of C10: `delete_collection` with no resolvable name
raises and leaves the state untouched. -/
theorem ops_preserve_instance_state_witness :
    (delete_collection true none sNoneW).2 = sNoneW := by
  have h := ops_preserve_instance_state true [] (fun _ _ => true) 1
    (fun _ => some []) [] 10 none false 0 ([], none) 0 none "f" "keyword"
    .ok .dot 4 true true none sNoneW
  exact h.2.2.2.2.2.2.2 (by rfl)

end QdrantWrapper
